import Mathlib

/-!
Verification of the medicine-information pipeline of
`medical-prescription-analyzer` (`medicine_info.py`).

The browser, the search engine and the generative backend are external
effectful collaborators; they are modelled as input oracles (booleans for
"did this interaction succeed", strings/options for what a locator query
returned).  All repository logic — domain preference scanning, spelling
correction bookkeeping, HTML cleaning and main-content selection, newline
collapsing, JSON default filling, the retry wrapper and the orchestrator
loop — is embedded faithfully from the source.
-/

namespace MedAnalyzer

/-- Python whitespace characters, as recognised by `str.strip` and by
BeautifulSoup's `get_text(strip=True)`. -/
def pySpace (c : Char) : Bool :=
  c = ' ' || c = '\t' || c = '\n' || c = '\r' || c = '\x0b' || c = '\x0c'

/-- Python `str.strip`: drop leading and trailing whitespace. -/
def pyStrip (s : String) : String :=
  String.mk (((s.toList.dropWhile pySpace).reverse.dropWhile pySpace).reverse)

/-- `isPref needle hay`: the first character list starts the second. -/
def isPref : List Char → List Char → Bool
  | [], _ => true
  | _ :: _, [] => false
  | a :: as, b :: bs => a = b && isPref as bs

/-- `hasSub needle hay`: the first character list occurs contiguously inside
the second (Python's `needle in hay` on strings). -/
def hasSub (needle : List Char) : List Char → Bool
  | [] => needle.isEmpty
  | c :: t => isPref needle (c :: t) || hasSub needle t

/-- Python's `in` operator on strings. -/
def strIn (needle hay : String) : Bool :=
  hasSub needle.toList hay.toList

/-- The regex condition of line 260: the current character is a newline and
at least two more newlines follow, i.e. a run of three or more newlines
starts here. -/
def nlRun3 (c : Char) (rest : List Char) : Bool :=
  c == '\n' && isPref ['\n', '\n'] rest

/-- `re.sub` of the pattern "three or more newlines" with two newlines
(line 260 of `medicine_info.py`), on the character list: a leading newline
followed by at least two more newlines is dropped, so every maximal run of
three or more consecutive newline characters is replaced by exactly two. -/
def collapseChars : List Char → List Char
  | [] => []
  | c :: rest =>
    if nlRun3 c rest then collapseChars rest
    else c :: collapseChars rest

/-- The markdown newline-collapsing step of `convert_html_to_markdown`. -/
def collapseNewlines (s : String) : String :=
  String.mk (collapseChars s.toList)

/-- Whether a character list contains three consecutive newlines. -/
def hasTriple : List Char → Bool
  | [] => false
  | c :: rest => nlRun3 c rest || hasTriple rest

/-- One search-result link (an `h3` element on the results page): `href` is
the parent anchor's `href` attribute (the empty string when the attribute is
absent, matching `get_attribute('href') or ""`); `attrOk` models whether
locating the parent and reading the attribute succeeds, `clickOk` whether
clicking the link and waiting for the navigation succeeds. -/
structure SLink where
  href : String
  attrOk : Bool := true
  clickOk : Bool := true
deriving Repr, DecidableEq

/-- The priority list of trusted medical websites (`preferred_domains`). -/
def preferred_domains : List String :=
  ["1mg.com", "apollopharmacy.in", "webmd.com", "mayoclinic.org",
   "drugs.com", "rxlist.com", "nih.gov", "medlineplus.gov",
   "pharmeasy.in", "netmeds.com"]

/-- Inner loop of `select_medication_website` for one fixed domain: scan the
links in page order; on a link whose parent href contains the domain, click
it and return the landing URL (modelled as the href); any exception inside
the per-link `try` (attribute read or click) continues with the next link. -/
def scanDomain (domain : String) : List SLink → Option String
  | [] => none
  | l :: ls =>
    if l.attrOk && strIn domain l.href && l.clickOk then some l.href
    else scanDomain domain ls

/-- Outer loop of `select_medication_website`: the preference list is scanned
in order, each domain over the full link list. -/
def scanPreferred : List String → List SLink → Option String
  | [], _ => none
  | d :: ds, links =>
    match scanDomain d links with
    | some u => some u
    | none => scanPreferred ds links

/-- `select_medication_website` (lines 30-81): `waitOk` models whether
`wait_for_selector` finds result elements before timing out (a timeout
raises and the outer `except` returns `None`).  If no preferred domain
matches, the first result is clicked unconditionally; an exception there
(including the index error on an empty list) is caught and `None` is
returned. -/
def select_medication_website (waitOk : Bool) (links : List SLink) :
    Option String :=
  if waitOk then
    match scanPreferred preferred_domains links with
    | some u => some u
    | none =>
      match links with
      | [] => none
      | l :: _ => if l.clickOk then some l.href else none
  else none

/-- Modelled from the spec's words, for comparison with
`select_medication_website`: scan the fixed preference list of domains in
order and, within each domain, the results in original page order, selecting
the first result whose link URL contains that domain substring; only if no
preferred domain matches any result, select the first result and return its
URL. -/
def selectorSpec (links : List SLink) : Option String :=
  match preferred_domains.findSome?
      (fun d => (links.find? (fun l => strIn d l.href)).map SLink.href) with
  | some u => some u
  | none => links.head?.map SLink.href

/-- A JSON value as relevant to the backend's parsed response object: the
required fields are strings, except the benefits field which is a list of
strings. -/
inductive JVal where
  | s (v : String)
  | arr (v : List String)
deriving Repr, DecidableEq

/-- Python truthiness of a parsed JSON value, as tested by
`not result["medicine_name"]`. -/
def JVal.truthy : JVal → Bool
  | .s v => v != ""
  | .arr v => !v.isEmpty

/-- A parsed JSON object / Python dict, as an association list with unique
keys in insertion order. -/
abbrev JsonObj := List (String × JVal)

/-- Python dict lookup (`result[k]` / `k in result`), generic in the value
type (used both for parsed JSON objects and for the batch mapping). -/
def jGet {α : Type} (o : List (String × α)) (k : String) : Option α :=
  match o with
  | [] => none
  | (k', v) :: t => if k' = k then some v else jGet t k

/-- Python dict item assignment: overwrite in place when the key is present
(keeping its insertion position), append at the end otherwise. -/
def jSet {α : Type} (o : List (String × α)) (k : String) (v : α) :
    List (String × α) :=
  match o with
  | [] => [(k, v)]
  | (k', v') :: t => if k' = k then (k, v) :: t else (k', v') :: jSet t k v

/-- `required_keys` of `extract_medicine_info` (line 339). -/
def required_keys : List String :=
  ["medicine_name", "description", "key_benefits", "directions",
   "safety_info", "relevant_info"]

/-- The default filled in for a missing required key (lines 342-345). -/
def defaultFor (k : String) : JVal :=
  if k = "key_benefits" then .arr [] else .s ""

/-- One iteration of the required-keys loop (lines 340-345): a key already
present is left alone, a missing one is set to its default. -/
def fillKey (r : JsonObj) (k : String) : JsonObj :=
  match jGet r k with
  | some _ => r
  | none => jSet r k (defaultFor k)

/-- Lines 334-336 of `extract_medicine_info`: fill `medicine_name` with the
input name when the key is absent or falsy. -/
def nameFixed (medicine_name : String) (result : JsonObj) : JsonObj :=
  match jGet result "medicine_name" with
  | none => jSet result "medicine_name" (.s medicine_name)
  | some v =>
    if v.truthy then result
    else jSet result "medicine_name" (.s medicine_name)

/-- Lines 334-346 of `extract_medicine_info`: fix up `medicine_name`, then
default every required key still missing. -/
def fillDefaults (medicine_name : String) (result : JsonObj) : JsonObj :=
  required_keys.foldl fillKey (nameFixed medicine_name result)

/-- The default structure returned by the `except` branch of
`extract_medicine_info` (lines 349-359). -/
def errorRecord (medicine_name msg : String) : JsonObj :=
  [("medicine_name", .s medicine_name),
   ("description", .s ("Error extracting information: " ++ msg)),
   ("key_benefits", .arr []),
   ("directions", .s ""),
   ("safety_info", .s ""),
   ("relevant_info", .s "")]

/-- One execution of the body of `extract_medicine_info` (lines 300-359).
The oracle value is the outcome of the `generate_content` call together
with fence stripping and JSON parsing/repair: `.ok` carries the parsed
object, `.error` the message of any exception raised in that region.  The
inner try/except converts every exception into the error record, so the
body itself never raises. -/
def extractAttempt (medicine_name : String)
    (outcome : Except String JsonObj) : JsonObj :=
  match outcome with
  | .ok parsed => fillDefaults medicine_name parsed
  | .error e => errorRecord medicine_name e

/-- The `backoff.on_exception(..., max_tries=3)` decorator: run the body; an
exception raised by the body is retried until the tries are exhausted, at
which point it propagates.  `attempt` numbers the oracle calls. -/
def backoffRetry (tries : Nat) (body : Nat → Except String JsonObj)
    (attempt : Nat) : Except String JsonObj :=
  match tries with
  | 0 => .error ""
  | Nat.succ t =>
    match body attempt with
    | .ok v => .ok v
    | .error e => if t = 0 then .error e else backoffRetry t body (attempt + 1)

/-- `extract_medicine_info` (lines 271-359), the decorated function; the
`backend` oracle gives attempt `k`'s call-and-parse outcome.  The markdown
content only feeds the prompt, which the oracle abstracts. -/
def extract_medicine_info (backend : Nat → Except String JsonObj)
    (markdown_content medicine_name : String) : Except String JsonObj :=
  let _ := markdown_content
  backoffRetry 3 (fun k => .ok (extractAttempt medicine_name (backend k))) 0

/-- An HTML node, as parsed by BeautifulSoup: an element with its tag, `id`
attribute, class list, `role` attribute and children, or a text node. -/
inductive Html where
  | elem (tag : String) (idAttr : Option String) (classes : List String)
      (role : Option String) (children : List Html)
  | text (s : String)

/-- Tags removed by the noise-removal selector of line 221. -/
def unwantedTags : List String :=
  ["script", "style", "nav", "footer", "iframe", "aside"]

/-- Classes removed by the noise-removal selector of line 221. -/
def unwantedClasses : List String :=
  ["cookie-banner", "popup", "modal", "advertisement", "ad", "banner"]

/-- ARIA roles removed by the noise-removal selector of line 221. -/
def unwantedRoles : List String := ["banner", "complementary"]

/-- Whether an element matches the noise-removal selector of line 221. -/
def isUnwanted (tag : String) (classes : List String)
    (role : Option String) : Bool :=
  unwantedTags.contains tag
    || classes.any (fun c => unwantedClasses.contains c)
    || (match role with
        | some r => unwantedRoles.contains r
        | none => false)

/-- The `decompose` loop (lines 220-222): delete every element matching the
noise selector, everywhere in the tree. -/
def cleanList : List Html → List Html
  | [] => []
  | .text s :: rest => .text s :: cleanList rest
  | .elem t i c r ch :: rest =>
    if isUnwanted t c r then cleanList rest
    else .elem t i c r (cleanList ch) :: cleanList rest

/-- BeautifulSoup `get_text(strip=True)`: the concatenation of the stripped
text nodes of a forest (used only for the length threshold test). -/
def stripTextList : List Html → String
  | [] => ""
  | .text s :: rest => pyStrip s ++ stripTextList rest
  | .elem _ _ _ _ ch :: rest => stripTextList ch ++ stripTextList rest

/-- Modelled from the markdownify library boundary: `md(str(element))` is
abstracted as the concatenation of the element's text content (the verified
claims concern only text inclusion/exclusion and the trailing provenance
line, not markdown formatting). -/
def renderList : List Html → String
  | [] => ""
  | .text s :: rest => s ++ renderList rest
  | .elem _ _ _ _ ch :: rest => renderList ch ++ renderList rest

/-- The CSS selector shapes appearing in `potential_content_selectors`. -/
inductive Selector where
  | tagSel (t : String)
  | idSel (i : String)
  | classSel (c : String)
  | tagRoleSel (t r : String)

/-- Whether an element matches one selector. -/
def selMatches : Selector → Html → Bool
  | .tagSel t, .elem tag _ _ _ _ => tag = t
  | .idSel i, .elem _ idAttr _ _ _ => idAttr = some i
  | .classSel c, .elem _ _ classes _ _ => classes.contains c
  | .tagRoleSel t r, .elem tag _ _ role _ => tag = t && role = some r
  | _, .text _ => false

/-- `potential_content_selectors` (lines 226-238). -/
def potential_content_selectors : List Selector :=
  [.tagSel "main", .tagSel "article", .idSel "content", .classSel "content",
   .classSel "main", .classSel "main-content", .classSel "product-detail",
   .classSel "drug-info", .classSel "medicine-info",
   .classSel "product-description", .tagRoleSel "div" "main"]

/-- `soup.select`: all elements of a forest matching the selector, in
document (preorder) order. -/
def selectAllList (sel : Selector) : List Html → List Html
  | [] => []
  | .text _ :: rest => selectAllList sel rest
  | .elem t i c r ch :: rest =>
    (if selMatches sel (.elem t i c r ch) then [Html.elem t i c r ch] else [])
      ++ selectAllList sel ch ++ selectAllList sel rest

/-- `soup.body`: the first element with the given tag, in document order. -/
def findTag (t : String) : List Html → Option Html
  | [] => none
  | .text _ :: rest => findTag t rest
  | .elem tag i c r ch :: rest =>
    if tag = t then some (.elem tag i c r ch)
    else
      match findTag t ch with
      | some e => some e
      | none => findTag t rest

/-- The inner loop of the main-content search (lines 240-249): among the
elements matching one selector, the first in document order whose stripped
text exceeds 200 characters. -/
def contentProbe (cleaned : List Html) (sel : Selector) : Option Html :=
  (selectAllList sel cleaned).find?
    (fun el => 200 < (stripTextList [el]).length)

/-- `convert_html_to_markdown` (lines 211-269): clean the parsed tree, find
the first candidate selector with a matching element whose stripped text
exceeds 200 characters (first such element in document order), fall back to
the body (rendering the string "None" if there is none, as `md(str(None))`
does), collapse newline runs, and append the provenance line. -/
def convert_html_to_markdown (root : Html) (url : String) : String :=
  let cleaned := cleanList [root]
  let main_content := potential_content_selectors.findSome? (contentProbe cleaned)
  let rendered :=
    match main_content with
    | some el => renderList [el]
    | none =>
      match findTag "body" cleaned with
      | some b => renderList [b]
      | none => "None"
  collapseNewlines rendered ++ "\n\nSource URL: " ++ url

/-- The spelling-correction affordances visible on the results page, as the
oracles behind the locator queries of lines 121-141: the two `inner_text`
reads return `none` when the browser call raises (caught by the inner
try/except blocks). -/
structure SearchPage where
  didYouMeanVisible : Bool
  suggestionText : Option String
  showingResultsPresent : Bool
  correctionText : Option String

/-- The corrected-spelling bookkeeping of `search_single_medicine`
(lines 117-143): the "Did you mean" suggestion, when visible and
extractable, replaces the query; a "Showing results for" rewrite, when
present and extractable, replaces it again. -/
def correctedName (query : String) (pg : SearchPage) : String :=
  let c := query
  let c :=
    if pg.didYouMeanVisible then
      match pg.suggestionText with
      | some s => s
      | none => c
    else c
  if pg.showingResultsPresent then
    match pg.correctionText with
    | some s => s
    | none => c
  else c

/-- `search_single_medicine` (lines 83-153): navigation and typing are pure
interaction; the returned value is the corrected spelling paired with the
Site Selector's outcome, in both the success and the failure branch. -/
def search_single_medicine (query : String) (pg : SearchPage)
    (waitOk : Bool) (links : List SLink) : String × Option String :=
  (correctedName query pg, select_medication_website waitOk links)

/-- The per-item oracle for one iteration of the loop of
`process_medicine_list`: `bodyExc` (when some) models an exception raised
anywhere inside the item's try block, caught by the item-level except;
otherwise the search page, the Site Selector inputs, the name-extractor
outcome, the page HTML and the summarization backend drive the embedded
stage functions. -/
structure ItemEnv where
  bodyExc : Option String := none
  page : SearchPage
  waitOk : Bool := true
  links : List SLink := []
  extractedName : Option String := none
  html : Html := .text ""
  backend : Nat → Except String JsonObj

/-- A record appended when an item fails (the url-not-found branch of
lines 394-402 and the except branch of lines 433-442). -/
def placeholderRecord (medicine_name description : String) : JsonObj :=
  [("medicine_name", .s medicine_name),
   ("description", .s description),
   ("key_benefits", .arr []),
   ("directions", .s ""),
   ("safety_info", .s ""),
   ("relevant_info", .s ""),
   ("url", .s "")]

/-- One iteration of the medicine loop of `process_medicine_list`
(lines 384-442): the record appended to `results` for one input name.
The name-extractor result overrides the corrected name only when truthy
(line 407); the summarization record gets the url attached (line 417); an
exception escaping `extract_medicine_info` would be caught by the
item-level except. -/
def processItem (medicine_name : String) (env : ItemEnv) : JsonObj :=
  match env.bodyExc with
  | some e => placeholderRecord medicine_name ("Error: " ++ e)
  | none =>
    let search_term := medicine_name ++ " medicine links"
    let res := search_single_medicine search_term env.page env.waitOk env.links
    match res.2 with
    | none =>
      placeholderRecord medicine_name
        "Failed to find a reliable URL for this medicine"
    | some url =>
      let corrected :=
        match env.extractedName with
        | some n => if n != "" then n else res.1
        | none => res.1
      let markdown := convert_html_to_markdown env.html url
      match extract_medicine_info env.backend markdown corrected with
      | .ok info => jSet info "url" (.s url)
      | .error e => placeholderRecord medicine_name ("Error: " ++ e)

/-- The medicine loop of `process_medicine_list`: one record appended per
input name, the oracle indexed by the loop counter. -/
def runItems (envs : Nat → ItemEnv) : List String → Nat → List JsonObj
  | [], _ => []
  | n :: ns, i => processItem n (envs i) :: runItems envs ns (i + 1)

/-- Python exceptions that can escape `process_medicine_list`. -/
inductive PyExc where
  | zeroDivision
  | keyErr (k : String)
  | typeErr
deriving Repr, DecidableEq

/-- `info["medicine_name"]` used as the mapping key (line 451/461): a
missing key raises KeyError; a list value would be an unhashable dict key
and raises TypeError. -/
def recordKey (info : JsonObj) : Except PyExc String :=
  match jGet info "medicine_name" with
  | none => .error (.keyErr "medicine_name")
  | some (.s n) => .ok n
  | some (.arr _) => .error .typeErr

/-- Lines 454-458: a list of benefits is joined with ", "; anything else is
converted with `str`. -/
def benefitsString : JVal → String
  | .arr l => String.intercalate ", " l
  | .s s => s

/-- Python indexing `info[k]` inside the aggregation loop: raises KeyError
when absent. -/
def indexKey (info : JsonObj) (k : String) : Except PyExc JVal :=
  match jGet info k with
  | none => .error (.keyErr k)
  | some v => .ok v

/-- The body of the aggregation loop (lines 450-468): resolve the mapping
key and build the per-medicine entry. -/
def projectRecord (info : JsonObj) : Except PyExc (String × JsonObj) := do
  let key ← recordKey info
  let benefits ← indexKey info "key_benefits"
  let description ← indexKey info "description"
  let directions ← indexKey info "directions"
  let safety_info ← indexKey info "safety_info"
  let relevant_info ← indexKey info "relevant_info"
  pure (key,
    [("description", description),
     ("key_benefits", .s (benefitsString benefits)),
     ("directions", directions),
     ("safety_info", safety_info),
     ("relevant_info", relevant_info),
     ("url", (jGet info "url").getD (.s ""))])

/-- The aggregation loop (lines 449-468): fold the result records into the
`medicine_data` dict, keyed by resolved medicine name. -/
def aggregate (results : List JsonObj) (acc : List (String × JsonObj)) :
    Except PyExc (List (String × JsonObj)) :=
  match results with
  | [] => .ok acc
  | info :: rest => do
    let p ← projectRecord info
    aggregate rest (jSet acc p.1 p.2)

/-- `process_medicine_list` (lines 361-473): run the loop (one record per
input), aggregate into the mapping, then report the success rate — whose
f-string divides the success count by the input length and raises
ZeroDivisionError for an empty batch — and return the mapping. -/
def process_medicine_list (medicine_list : List String)
    (envs : Nat → ItemEnv) : Except PyExc (List (String × JsonObj)) := do
  let results := runItems envs medicine_list 0
  let medicine_data ← aggregate results []
  if medicine_list.isEmpty then Except.error PyExc.zeroDivision
  else pure medicine_data

/-! ## Helper lemmas -/

lemma jGet_jSet_self {α : Type} (o : List (String × α)) (k : String) (v : α) :
    jGet (jSet o k v) k = some v := by
  induction o with
  | nil => simp [jSet, jGet]
  | cons hd t ih =>
    obtain ⟨k', v'⟩ := hd
    by_cases hk : k' = k
    · simp [jSet, hk, jGet]
    · simp [jSet, hk, jGet, ih]

lemma jGet_jSet_ne {α : Type} (o : List (String × α)) (k k' : String) (v : α)
    (h : k' ≠ k) : jGet (jSet o k v) k' = jGet o k' := by
  induction o with
  | nil =>
    simp only [jSet, jGet]
    rw [if_neg (fun hc => h hc.symm)]
  | cons hd t ih =>
    obtain ⟨k'', v''⟩ := hd
    by_cases hk : k'' = k
    · subst hk
      have hne : ¬k'' = k' := fun hc => h hc.symm
      simp [jSet, jGet, hne]
    · by_cases hk' : k'' = k'
      · subst hk'
        simp [jSet, jGet, hk]
      · simp [jSet, hk, jGet, hk', ih]

lemma jSet_length_of_missing {α : Type} (o : List (String × α)) (k : String)
    (v : α) (h : jGet o k = none) : (jSet o k v).length = o.length + 1 := by
  induction o with
  | nil => simp [jSet]
  | cons hd t ih =>
    obtain ⟨k', v'⟩ := hd
    by_cases hk : k' = k
    · simp [jGet, hk] at h
    · simp [jGet, hk] at h
      simp [jSet, hk, ih h]

lemma scanDomain_eq_find (d : String) (links : List SLink)
    (h : ∀ l ∈ links, l.attrOk = true ∧ l.clickOk = true) :
    scanDomain d links = (links.find? (fun l => strIn d l.href)).map SLink.href := by
  induction links with
  | nil => rfl
  | cons a as ih =>
    have ha := h a (List.mem_cons_self a as)
    have hrest : ∀ l ∈ as, l.attrOk = true ∧ l.clickOk = true :=
      fun l hl => h l (List.mem_cons_of_mem a hl)
    by_cases hd : strIn d a.href
    · simp [scanDomain, ha.1, ha.2, hd, List.find?_cons]
    · simp [scanDomain, ha.1, ha.2, hd, List.find?_cons, ih hrest]

lemma scanPreferred_eq_findSome (links : List SLink)
    (h : ∀ l ∈ links, l.attrOk = true ∧ l.clickOk = true) (ds : List String) :
    scanPreferred ds links =
      ds.findSome? (fun d => (links.find? (fun l => strIn d l.href)).map SLink.href) := by
  induction ds with
  | nil => rfl
  | cons d ds ih =>
    rw [List.findSome?_cons]
    show (match scanDomain d links with
      | some u => some u
      | none => scanPreferred ds links) = _
    rw [scanDomain_eq_find d links h, ih]
    cases (links.find? (fun l => strIn d l.href)).map SLink.href <;> rfl

lemma scanDomain_none_of_noclick (d : String) (links : List SLink)
    (h : ∀ l ∈ links, l.clickOk = false) : scanDomain d links = none := by
  induction links with
  | nil => rfl
  | cons a as ih =>
    have ha := h a (List.mem_cons_self a as)
    have hrest : ∀ l ∈ as, l.clickOk = false :=
      fun l hl => h l (List.mem_cons_of_mem a hl)
    simp [scanDomain, ha, ih hrest]

lemma scanPreferred_none_of_noclick (ds : List String) (links : List SLink)
    (h : ∀ l ∈ links, l.clickOk = false) : scanPreferred ds links = none := by
  induction ds with
  | nil => rfl
  | cons d ds ih =>
    show (match scanDomain d links with
      | some u => some u
      | none => scanPreferred ds links) = none
    rw [scanDomain_none_of_noclick d links h, ih]

/-! ## Claims -/

/-- C5: on a results page where every link interaction succeeds, the Site
Selector chooses by trusted-domain priority first and page order second: it
scans the fixed preference list of domains in order and, within each domain,
the results in original page order, selecting the first result whose link
URL contains that domain substring, and only if no preferred domain matches
any result does it select the first result unconditionally and return its
URL. -/
theorem select_medication_website_refines_spec (links : List SLink)
    (h : ∀ l ∈ links, l.attrOk = true ∧ l.clickOk = true) :
    select_medication_website true links = selectorSpec links := by
  unfold select_medication_website selectorSpec
  rw [if_pos rfl, scanPreferred_eq_findSome links h]
  cases preferred_domains.findSome?
      (fun d => (links.find? (fun l => strIn d l.href)).map SLink.href) with
  | some u => rfl
  | none =>
    cases links with
    | nil => rfl
    | cons l ls => simp [(h l (List.mem_cons_self l ls)).2]

/-- C5 witness: the spec's concrete example — a preferred-domain result in
second position beats a non-preferred result in first position. -/
theorem select_medication_website_refines_spec_witness :
    select_medication_website true
        [{ href := "https://unknown.example/x" }, { href := "https://1mg.com/y" }]
      = selectorSpec
        [{ href := "https://unknown.example/x" }, { href := "https://1mg.com/y" }]
    ∧ selectorSpec
        [{ href := "https://unknown.example/x" }, { href := "https://1mg.com/y" }]
      = some "https://1mg.com/y" :=
  ⟨select_medication_website_refines_spec _ (by decide), by decide⟩

/-- C6: the Site Selector never propagates an exception: when the bounded
wait for result elements fails, when the result list is empty, or when every
click interaction fails during selection and fallback navigation, it
returns `none` instead of raising (the embedding is a total function; every
exception path of the source ends in `return None`). -/
theorem select_medication_website_null_outcomes (waitOk : Bool)
    (links : List SLink) :
    (waitOk = false → select_medication_website waitOk links = none)
    ∧ (links = [] → select_medication_website waitOk links = none)
    ∧ ((∀ l ∈ links, l.clickOk = false) →
        select_medication_website waitOk links = none) := by
  refine ⟨fun hw => by simp [select_medication_website, hw], ?_, ?_⟩
  · rintro rfl
    cases waitOk <;> rfl
  · intro h
    cases waitOk with
    | false => rfl
    | true =>
      unfold select_medication_website
      rw [if_pos rfl, scanPreferred_none_of_noclick _ _ h]
      cases links with
      | nil => rfl
      | cons l ls => simp [h l (List.mem_cons_self l ls)]

/-- C6 witness: concrete null outcomes — wait timeout, empty result list,
and a failing click on the only (non-preferred) result. -/
theorem select_medication_website_null_outcomes_witness :
    select_medication_website false [{ href := "https://1mg.com/y" }] = none
    ∧ select_medication_website true [] = none
    ∧ select_medication_website true
        [{ href := "https://x.example/a", clickOk := false }] = none :=
  ⟨(select_medication_website_null_outcomes false _).1 rfl,
   (select_medication_website_null_outcomes true []).2.1 rfl,
   (select_medication_website_null_outcomes true _).2.2 (by decide)⟩

lemma extract_medicine_info_first_attempt (backend : Nat → Except String JsonObj)
    (md name : String) :
    extract_medicine_info backend md name
      = Except.ok (extractAttempt name (backend 0)) := rfl

lemma jGet_foldl_fillKey (L : List String) (r : JsonObj) (k : String) :
    jGet (L.foldl fillKey r) k =
      match jGet r k with
      | some v => some v
      | none => if k ∈ L then some (defaultFor k) else none := by
  induction L generalizing r with
  | nil =>
    rw [List.foldl_nil]
    cases h : jGet r k <;> simp
  | cons k' ks ih =>
    rw [List.foldl_cons, ih]
    by_cases hk : k = k'
    · subst hk
      cases h : jGet r k with
      | some v => simp [fillKey, h]
      | none => simp [fillKey, h, jGet_jSet_self]
    · have hfk : jGet (fillKey r k') k = jGet r k := by
        unfold fillKey
        cases h : jGet r k' with
        | some v => rfl
        | none => exact jGet_jSet_ne r k' k (defaultFor k') hk
      rw [hfk]
      cases jGet r k with
      | some v => rfl
      | none => simp [List.mem_cons, hk]

lemma jGet_nameFixed_ne (n : String) (r : JsonObj) (k : String)
    (hk : k ≠ "medicine_name") : jGet (nameFixed n r) k = jGet r k := by
  unfold nameFixed
  cases h : jGet r "medicine_name" with
  | none => exact jGet_jSet_ne r "medicine_name" k _ hk
  | some v =>
    cases hv : v.truthy with
    | true => simp [hv]
    | false => simp [hv, jGet_jSet_ne r "medicine_name" k _ hk]

lemma jGet_nameFixed_default (n : String) (r : JsonObj)
    (h : jGet r "medicine_name" = none
      ∨ ∃ v, jGet r "medicine_name" = some v ∧ v.truthy = false) :
    jGet (nameFixed n r) "medicine_name" = some (.s n) := by
  unfold nameFixed
  rcases h with h | ⟨v, hv, ht⟩
  · rw [h]
    exact jGet_jSet_self r "medicine_name" _
  · rw [hv]
    simp [ht, jGet_jSet_self]

/-- C3: a successful `extract_medicine_info` call returns the parsed object
with all six required keys present: the input name replaces a missing or
falsy `medicine_name`, and every other required key missing from the parsed
JSON is defaulted (`defaultFor` is the empty list for `key_benefits` and the
empty string otherwise) — no required key is ever absent. -/
theorem extract_medicine_info_default_filling
    (backend : Nat → Except String JsonObj) (parsed : JsonObj)
    (md name : String) (h : backend 0 = Except.ok parsed) :
    extract_medicine_info backend md name
      = Except.ok (fillDefaults name parsed)
    ∧ (∀ k ∈ required_keys, (jGet (fillDefaults name parsed) k).isSome = true)
    ∧ ((jGet parsed "medicine_name" = none
        ∨ ∃ v, jGet parsed "medicine_name" = some v ∧ v.truthy = false) →
       jGet (fillDefaults name parsed) "medicine_name" = some (.s name))
    ∧ (∀ k ∈ required_keys, k ≠ "medicine_name" → jGet parsed k = none →
       jGet (fillDefaults name parsed) k = some (defaultFor k)) := by
  refine ⟨?_, ?_, ?_, ?_⟩
  · rw [extract_medicine_info_first_attempt, h]
    rfl
  · intro k hk
    unfold fillDefaults
    rw [jGet_foldl_fillKey]
    cases jGet (nameFixed name parsed) k with
    | some v => rfl
    | none => rw [if_pos hk]; rfl
  · intro h3
    unfold fillDefaults
    rw [jGet_foldl_fillKey, jGet_nameFixed_default name parsed h3]
  · intro k hk hne hmiss
    unfold fillDefaults
    rw [jGet_foldl_fillKey, jGet_nameFixed_ne name parsed k hne, hmiss]
    rw [if_pos hk]

/-- A parsed backend response with a falsy medicine name and most required
keys missing, exercising the default filling. -/
def c3Parsed : JsonObj :=
  [("description", .s "An analgesic"), ("medicine_name", .s "")]

/-- C3 witness: concrete default filling on `c3Parsed`. -/
theorem extract_medicine_info_default_filling_witness :
    extract_medicine_info (fun _ => Except.ok c3Parsed) "md" "Dolo"
      = Except.ok (fillDefaults "Dolo" c3Parsed)
    ∧ jGet (fillDefaults "Dolo" c3Parsed) "medicine_name" = some (.s "Dolo")
    ∧ jGet (fillDefaults "Dolo" c3Parsed) "key_benefits"
        = some (defaultFor "key_benefits") :=
  ⟨(extract_medicine_info_default_filling (fun _ => Except.ok c3Parsed)
      c3Parsed "md" "Dolo" rfl).1,
   (extract_medicine_info_default_filling (fun _ => Except.ok c3Parsed)
      c3Parsed "md" "Dolo" rfl).2.2.1
      (Or.inr ⟨JVal.s "", by decide, by decide⟩),
   (extract_medicine_info_default_filling (fun _ => Except.ok c3Parsed)
      c3Parsed "md" "Dolo" rfl).2.2.2
      "key_benefits" (by decide) (by decide) (by decide)⟩

/-- C4: when the backend raises on every call, `extract_medicine_info`
returns (rather than raises) the error record: its description embeds the
error message, its remaining fields are the defaults, and its medicine name
is the input name — the failure does not propagate past the stage boundary. -/
theorem extract_medicine_info_total_failure_default
    (backend : Nat → Except String JsonObj) (md name e : String)
    (h0 : backend 0 = Except.error e)
    (_hall : ∀ k, ∃ msg, backend k = Except.error msg) :
    extract_medicine_info backend md name = Except.ok (errorRecord name e)
    ∧ jGet (errorRecord name e) "description"
        = some (.s ("Error extracting information: " ++ e))
    ∧ jGet (errorRecord name e) "medicine_name" = some (.s name)
    ∧ jGet (errorRecord name e) "key_benefits" = some (.arr [])
    ∧ jGet (errorRecord name e) "directions" = some (.s "")
    ∧ jGet (errorRecord name e) "safety_info" = some (.s "")
    ∧ jGet (errorRecord name e) "relevant_info" = some (.s "") :=
  ⟨by rw [extract_medicine_info_first_attempt, h0]; rfl, rfl, rfl, rfl, rfl, rfl, rfl⟩

/-- C4 witness: a backend that always raises "boom". -/
theorem extract_medicine_info_total_failure_default_witness :
    extract_medicine_info (fun _ => Except.error "boom") "md" "Aspirin"
      = Except.ok (errorRecord "Aspirin" "boom")
    ∧ jGet (errorRecord "Aspirin" "boom") "description"
        = some (.s ("Error extracting information: " ++ "boom")) :=
  ⟨(extract_medicine_info_total_failure_default (fun _ => Except.error "boom")
      "md" "Aspirin" "boom" rfl (fun _ => ⟨"boom", rfl⟩)).1,
   (extract_medicine_info_total_failure_default (fun _ => Except.error "boom")
      "md" "Aspirin" "boom" rfl (fun _ => ⟨"boom", rfl⟩)).2.1⟩

/-- A valid parsed response carrying all six required keys. -/
def c1GoodJson : JsonObj :=
  [("medicine_name", .s "Paracetamol 500mg"),
   ("description", .s "Analgesic and antipyretic"),
   ("key_benefits", .arr ["pain relief", "fever reduction"]),
   ("directions", .s "After food"),
   ("safety_info", .s "Avoid overdose"),
   ("relevant_info", .s "Store below 25C")]

/-- A backend raising on the first two attempts and succeeding on the
third. -/
def c1Backend : Nat → Except String JsonObj :=
  fun k => if k < 2 then Except.error "transient network failure"
           else Except.ok c1GoodJson

/-- C1 (the code contradicts its retry decorator): with a backend raising on
the first two attempts and returning valid JSON on the third,
`extract_medicine_info` does not return the third attempt's parsed result —
the internal catch-all turns the first attempt's exception into the error
record, so the backoff wrapper never observes an exception and never
retries. -/
theorem extract_medicine_info_retry_never_fires :
    extract_medicine_info c1Backend "md" "Paracetamol"
      = Except.ok (errorRecord "Paracetamol" "transient network failure")
    ∧ c1Backend 2 = Except.ok c1GoodJson
    ∧ errorRecord "Paracetamol" "transient network failure"
      ≠ fillDefaults "Paracetamol" c1GoodJson :=
  ⟨rfl, rfl, by decide⟩

/-- C10: on the empty input list, `process_medicine_list` raises
ZeroDivisionError (the success-rate report divides by the input length)
instead of returning an empty mapping. -/
theorem process_medicine_list_empty_raises (envs : Nat → ItemEnv) :
    process_medicine_list [] envs = Except.error PyExc.zeroDivision := rfl

lemma runItems_length (envs : Nat → ItemEnv) (ns : List String) (i : Nat) :
    (runItems envs ns i).length = ns.length := by
  induction ns generalizing i with
  | nil => rfl
  | cons n t ih => simp [runItems, ih]

lemma aggregate_length (results : List JsonObj)
    (pairs acc : List (String × JsonObj))
    (hproj : results.mapM projectRecord = Except.ok pairs)
    (hfresh : ∀ k ∈ pairs.map Prod.fst, jGet acc k = none)
    (hnodup : (pairs.map Prod.fst).Nodup) :
    ∃ m, aggregate results acc = Except.ok m
      ∧ m.length = acc.length + results.length := by
  induction results generalizing pairs acc with
  | nil =>
    simp only [List.mapM_nil, pure, Except.pure, Except.ok.injEq] at hproj
    exact ⟨acc, rfl, by simp⟩
  | cons info rest ih =>
    rw [List.mapM_cons] at hproj
    cases hp : projectRecord info with
    | error e => rw [hp] at hproj; simp [Bind.bind, Except.bind] at hproj
    | ok p =>
      rw [hp] at hproj
      cases hr : rest.mapM projectRecord with
      | error e =>
        rw [hr] at hproj
        simp [Bind.bind, Except.bind, pure, Except.pure] at hproj
      | ok ps =>
        rw [hr] at hproj
        simp only [Bind.bind, Except.bind, pure, Except.pure,
          Except.ok.injEq] at hproj
        subst hproj
        simp only [List.map_cons, List.nodup_cons, List.mem_map] at hnodup
        have hfresh0 : jGet acc p.1 = none :=
          hfresh p.1 (by simp)
        have hfresh' : ∀ k ∈ ps.map Prod.fst, jGet (jSet acc p.1 p.2) k = none := by
          intro k hk
          have hkne : k ≠ p.1 := by
            rintro rfl
            rcases List.mem_map.mp hk with ⟨q, hq, hq1⟩
            exact hnodup.1 ⟨q, hq, hq1⟩
          rw [jGet_jSet_ne acc p.1 k p.2 hkne]
          exact hfresh k (by simp [hk])
        obtain ⟨m, hm, hlen⟩ := ih ps (jSet acc p.1 p.2) hr hfresh' hnodup.2
        refine ⟨m, ?_, ?_⟩
        · show (do
            let q ← projectRecord info
            aggregate rest (jSet acc q.1 q.2)) = Except.ok m
          rw [hp]
          exact hm
        · rw [hlen, jSet_length_of_missing acc p.1 p.2 hfresh0]
          simp [Nat.add_assoc, Nat.add_comm 1]

/-- The shared per-item environment of the C2 scenarios: no correction
affordances, no search results (so no URL is found), a failing backend. -/
def c2Env : ItemEnv :=
  { page := { didYouMeanVisible := false, suggestionText := none,
              showingResultsPresent := false, correctionText := none },
    backend := fun _ => Except.error "backend down" }

/-- C2 counterexample: two input names that resolve to the same record key
collapse into a single mapping entry — the batch of length 2 returns a
mapping with 1 entry, not 2. -/
theorem process_medicine_list_duplicate_collapse :
    (process_medicine_list ["aspirin", "aspirin"] (fun _ => c2Env)).map
        List.length = Except.ok 1
    ∧ (1 : Nat) ≠ 2 := ⟨rfl, by decide⟩

/-- C2 (amended): the per-item results list always has exactly one record
per input name; the returned mapping has one entry per distinct resolved
name, hence exactly N entries when the batch is nonempty and the N resolved
keys are pairwise distinct (and fewer when resolved names collide). -/
theorem process_medicine_list_entry_count (inputs : List String)
    (envs : Nat → ItemEnv) (pairs : List (String × JsonObj))
    (hne : inputs ≠ [])
    (hproj : (runItems envs inputs 0).mapM projectRecord = Except.ok pairs)
    (hnodup : (pairs.map Prod.fst).Nodup) :
    (runItems envs inputs 0).length = inputs.length
    ∧ ∃ m, process_medicine_list inputs envs = Except.ok m
        ∧ m.length = inputs.length := by
  obtain ⟨m, hm, hlen⟩ :=
    aggregate_length (runItems envs inputs 0) pairs [] hproj (fun k _ => rfl)
      hnodup
  have hempty : inputs.isEmpty = false := by
    cases inputs with
    | nil => exact absurd rfl hne
    | cons a t => rfl
  refine ⟨runItems_length envs inputs 0, m, ?_, ?_⟩
  · show (do
      let results := runItems envs inputs 0
      let medicine_data ← aggregate results []
      if inputs.isEmpty then Except.error PyExc.zeroDivision
      else pure medicine_data) = Except.ok m
    rw [show (do
      let results := runItems envs inputs 0
      let medicine_data ← aggregate results []
      if inputs.isEmpty then Except.error PyExc.zeroDivision
      else pure medicine_data : Except PyExc (List (String × JsonObj)))
        = (do
      let medicine_data ← aggregate (runItems envs inputs 0) []
      if inputs.isEmpty then Except.error PyExc.zeroDivision
      else pure medicine_data) from rfl, hm]
    simp [Bind.bind, Except.bind, hempty, pure, Except.pure]
  · rw [hlen, runItems_length]
    simp

/-- The aggregation entry produced for an input whose search finds no URL. -/
def c2Entry : JsonObj :=
  [("description", .s "Failed to find a reliable URL for this medicine"),
   ("key_benefits", .s ""),
   ("directions", .s ""),
   ("safety_info", .s ""),
   ("relevant_info", .s ""),
   ("url", .s "")]

/-- C2 witness: a singleton batch yields a mapping with exactly one entry. -/
theorem process_medicine_list_entry_count_witness :
    (runItems (fun _ => c2Env) ["ibuprofen"] 0).length = 1
    ∧ ∃ m, process_medicine_list ["ibuprofen"] (fun _ => c2Env) = Except.ok m
        ∧ m.length = 1 :=
  process_medicine_list_entry_count ["ibuprofen"] (fun _ => c2Env)
    [("ibuprofen", c2Entry)] (by decide) rfl (by decide)

/-- C8: with no automatic "Showing results for" rewrite on the page, the
Search Stage returns the "did you mean" suggestion as the corrected name
when the affordance is shown and its text is extractable; when the
affordance is absent, or the suggestion text cannot be extracted, the
corrected name is the original query. -/
theorem search_single_medicine_correction (query : String) (pg : SearchPage)
    (s : String) (waitOk : Bool) (links : List SLink)
    (hnoauto : pg.showingResultsPresent = false) :
    (pg.didYouMeanVisible = true → pg.suggestionText = some s →
      (search_single_medicine query pg waitOk links).1 = s)
    ∧ (pg.didYouMeanVisible = false →
      (search_single_medicine query pg waitOk links).1 = query)
    ∧ (pg.suggestionText = none →
      (search_single_medicine query pg waitOk links).1 = query) := by
  unfold search_single_medicine correctedName
  refine ⟨fun h1 h2 => ?_, fun h1 => ?_, fun h2 => ?_⟩
  · simp [hnoauto, h1, h2]
  · simp [hnoauto, h1]
  · cases hv : pg.didYouMeanVisible <;> simp [hnoauto, hv, h2]

/-- A results page showing only a "did you mean: paracetamol" affordance. -/
def c8Page : SearchPage :=
  { didYouMeanVisible := true, suggestionText := some "paracetamol",
    showingResultsPresent := false, correctionText := none }

/-- C8 witness: the spec's example query "paracetamo" with the suggestion
"paracetamol", and the same page without the affordance. -/
theorem search_single_medicine_correction_witness :
    (search_single_medicine "paracetamo" c8Page true []).1 = "paracetamol"
    ∧ (search_single_medicine "paracetamo"
        { c8Page with didYouMeanVisible := false } true []).1 = "paracetamo" :=
  ⟨(search_single_medicine_correction "paracetamo" c8Page "paracetamol"
      true [] rfl).1 rfl rfl,
   (search_single_medicine_correction "paracetamo"
      { c8Page with didYouMeanVisible := false } "paracetamol"
      true [] rfl).2.1 rfl⟩

lemma nlRun3_ne (c : Char) (rest : List Char) (h : ¬c = '\n') :
    nlRun3 c rest = false := by
  simp [nlRun3, h]

lemma nlRun3_nl (rest : List Char) :
    nlRun3 '\n' rest = isPref ['\n', '\n'] rest := by
  simp [nlRun3]

lemma collapseChars_cons (c : Char) (rest : List Char) :
    collapseChars (c :: rest)
      = if nlRun3 c rest then collapseChars rest
        else c :: collapseChars rest := rfl

lemma collapseChars_of_no_nl (l : List Char) (h : '\n' ∉ l) :
    collapseChars l = l := by
  induction l with
  | nil => rfl
  | cons c t ih =>
    have hc : ¬c = '\n' := by
      rintro rfl
      exact h (List.mem_cons_self _ _)
    have ht : '\n' ∉ t := fun m => h (List.mem_cons_of_mem _ m)
    rw [collapseChars_cons, nlRun3_ne c t hc]
    simp [ih ht]

lemma collapseChars_append_of_no_nl (p rest : List Char) (h : '\n' ∉ p) :
    collapseChars (p ++ rest) = p ++ collapseChars rest := by
  induction p with
  | nil => rfl
  | cons c t ih =>
    have hc : ¬c = '\n' := by
      rintro rfl
      exact h (List.mem_cons_self _ _)
    have ht : '\n' ∉ t := fun m => h (List.mem_cons_of_mem _ m)
    rw [List.cons_append, collapseChars_cons, nlRun3_ne c _ hc]
    simp [ih ht]

lemma collapseChars_replicate (k : Nat) (q : List Char) :
    collapseChars (List.replicate (k + 2) '\n' ++ q)
      = collapseChars (List.replicate 2 '\n' ++ q) := by
  induction k with
  | zero => rfl
  | succ k ih =>
    have h1 : List.replicate (k + 1 + 2) '\n' ++ q
        = '\n' :: (List.replicate (k + 2) '\n' ++ q) := by
      rw [List.replicate_succ, List.cons_append]
    have h2 : isPref ['\n', '\n'] (List.replicate (k + 2) '\n' ++ q)
        = true := by
      rw [List.replicate_succ, List.replicate_succ, List.cons_append,
        List.cons_append]
      rfl
    rw [h1, collapseChars_cons, nlRun3_nl, h2]
    simpa using ih

lemma collapseChars_two_nl (q : List Char) (h : '\n' ∉ q) :
    collapseChars ('\n' :: '\n' :: q) = '\n' :: '\n' :: q := by
  have hq2 : isPref ['\n', '\n'] ('\n' :: q) = false := by
    cases q with
    | nil => rfl
    | cons c t =>
      have hne : ('\n' : Char) ≠ c := by
        rintro rfl
        exact h (List.mem_cons_self _ _)
      simp [isPref, hne]
  have hq1 : isPref ['\n', '\n'] q = false := by
    cases q with
    | nil => rfl
    | cons c t =>
      have hne : ('\n' : Char) ≠ c := by
        rintro rfl
        exact h (List.mem_cons_self _ _)
      simp [isPref, hne]
  rw [collapseChars_cons, nlRun3_nl, hq2]
  simp only [Bool.false_eq_true, if_false]
  rw [collapseChars_cons, nlRun3_nl, hq1]
  simp only [Bool.false_eq_true, if_false]
  rw [collapseChars_of_no_nl q h]

lemma isPref_two_nl_collapse (rest : List Char)
    (h : isPref ['\n', '\n'] rest = false) :
    isPref ['\n', '\n'] (collapseChars rest) = false := by
  cases rest with
  | nil => rfl
  | cons a t =>
    by_cases ha : a = '\n'
    · subst ha
      cases t with
      | nil => decide
      | cons b t' =>
        have hb : ('\n' : Char) ≠ b := by
          intro hbc
          rw [← hbc] at h
          simp [isPref] at h
        have hb' : ¬b = '\n' := fun e => hb e.symm
        have hcond : isPref ['\n', '\n'] (b :: t') = false := by
          simp [isPref, hb]
        rw [collapseChars_cons, nlRun3_nl, hcond]
        simp only [Bool.false_eq_true, if_false]
        rw [collapseChars_cons, nlRun3_ne b t' hb']
        simp only [Bool.false_eq_true, if_false]
        simp [isPref, hb]
    · have hna : ('\n' : Char) ≠ a := fun e => ha e.symm
      rw [collapseChars_cons, nlRun3_ne a t ha]
      simp only [Bool.false_eq_true, if_false]
      simp [isPref, hna]

lemma hasTriple_collapseChars (l : List Char) :
    hasTriple (collapseChars l) = false := by
  induction l with
  | nil => rfl
  | cons c rest ih =>
    cases hcond : nlRun3 c rest with
    | true =>
      rw [collapseChars_cons, hcond]
      simpa using ih
    | false =>
      rw [collapseChars_cons, hcond]
      simp only [Bool.false_eq_true, if_false, hasTriple, ih, Bool.or_false]
      by_cases hc : c = '\n'
      · subst hc
        rw [nlRun3_nl] at hcond ⊢
        exact isPref_two_nl_collapse rest hcond
      · exact nlRun3_ne c _ hc

lemma collapseChars_of_no_triple (l : List Char) (h : hasTriple l = false) :
    collapseChars l = l := by
  induction l with
  | nil => rfl
  | cons c rest ih =>
    simp only [hasTriple, Bool.or_eq_false_iff] at h
    rw [collapseChars_cons, h.1]
    simp [ih h.2]

/-- C9: the Content Normalizer's blank-line collapsing.  First conjunct: a
maximal run of `k ≥ 3` newline characters (in particular any run of 3 or
more blank lines, which is 4 or more newlines) between newline-free
segments collapses to exactly two newlines, i.e. one blank line.  Second
conjunct: the collapse is idempotent — re-running it on already-collapsed
text changes nothing. -/
theorem collapse_blank_lines_idempotent :
    (∀ (p q : List Char) (k : Nat), 3 ≤ k → '\n' ∉ p → '\n' ∉ q →
      collapseChars (p ++ List.replicate k '\n' ++ q)
        = p ++ '\n' :: '\n' :: q)
    ∧ ∀ s : String, collapseNewlines (collapseNewlines s)
        = collapseNewlines s := by
  constructor
  · intro p q k hk hp hq
    obtain ⟨j, rfl⟩ : ∃ j, k = j + 2 := ⟨k - 2, by omega⟩
    rw [List.append_assoc, collapseChars_append_of_no_nl p _ hp,
      collapseChars_replicate j q]
    have : List.replicate 2 '\n' ++ q = '\n' :: '\n' :: q := rfl
    rw [this, collapseChars_two_nl q hq]
  · intro s
    unfold collapseNewlines
    rw [show (String.mk (collapseChars s.toList)).toList
        = collapseChars s.toList from rfl]
    rw [collapseChars_of_no_triple _ (hasTriple_collapseChars s.toList)]

/-- C9 witness: a run of four newlines (three blank lines) between "a" and
"b" collapses to one blank line, and collapsing "a\n\n\n\nb" twice equals
collapsing it once. -/
theorem collapse_blank_lines_idempotent_witness :
    collapseChars (['a'] ++ List.replicate 4 '\n' ++ ['b'])
      = ['a'] ++ '\n' :: '\n' :: ['b']
    ∧ collapseNewlines (collapseNewlines "a\n\n\n\nb")
      = collapseNewlines "a\n\n\n\nb" :=
  ⟨collapse_blank_lines_idempotent.1 ['a'] ['b'] 4 (by decide) (by decide)
     (by decide),
   collapse_blank_lines_idempotent.2 "a\n\n\n\nb"⟩

/-- The main-content element of the C7 document family. -/
def c7Div (contentText : String) : Html :=
  .elem "div" none ["content"] none [.text contentText]

/-- The C7 document family: an html/body tree containing a nav, a script and
a div of class "content" with the given texts. -/
def c7Doc (navText scrText contentText : String) : Html :=
  .elem "html" none [] none
    [.elem "body" none [] none
      [.elem "nav" none [] none [.text navText],
       .elem "script" none [] none [.text scrText],
       c7Div contentText]]

/-- C7: for every HTML document containing a nav, a script, and a
div of class "content" whose stripped text exceeds 200 characters, the
Content Normalizer's output is exactly the (newline-collapsed) content text
followed by the provenance suffix: the nav and script texts do not occur in
the output at all (the output does not depend on them), the content text is
included, and the output ends with the line "Source URL: " ++ url. -/
theorem convert_html_to_markdown_normalizes
    (navText scrText contentText url : String)
    (h : 200 < (pyStrip contentText).length) :
    convert_html_to_markdown (c7Doc navText scrText contentText) url
      = collapseNewlines contentText ++ "\n\nSource URL: " ++ url
    ∧ (hasTriple contentText.toList = false →
       convert_html_to_markdown (c7Doc navText scrText contentText) url
         = contentText ++ "\n\nSource URL: " ++ url) := by
  have hlen : (stripTextList [c7Div contentText]).length
      = (pyStrip contentText).length := by
    simp [c7Div, stripTextList, String.append_empty]
  have hp : decide (200 < (stripTextList [c7Div contentText]).length)
      = true := by
    rw [hlen]
    exact decide_eq_true h
  have hclean : cleanList [c7Doc navText scrText contentText]
      = [Html.elem "html" none [] none
          [Html.elem "body" none [] none [c7Div contentText]]] := by
    simp [c7Doc, c7Div, cleanList, isUnwanted, unwantedTags, unwantedClasses,
      unwantedRoles]
  have h1 : contentProbe (cleanList [c7Doc navText scrText contentText])
      (Selector.tagSel "main") = none := by
    unfold contentProbe
    rw [hclean]
    simp [selectAllList, selMatches, c7Div]
  have h2 : contentProbe (cleanList [c7Doc navText scrText contentText])
      (Selector.tagSel "article") = none := by
    unfold contentProbe
    rw [hclean]
    simp [selectAllList, selMatches, c7Div]
  have h3 : contentProbe (cleanList [c7Doc navText scrText contentText])
      (Selector.idSel "content") = none := by
    unfold contentProbe
    rw [hclean]
    simp [selectAllList, selMatches, c7Div]
  have h4 : contentProbe (cleanList [c7Doc navText scrText contentText])
      (Selector.classSel "content") = some (c7Div contentText) := by
    unfold contentProbe
    rw [hclean]
    have hsel : selectAllList (Selector.classSel "content")
        [Html.elem "html" none [] none
          [Html.elem "body" none [] none [c7Div contentText]]]
        = [c7Div contentText] := by
      simp [selectAllList, selMatches, c7Div]
    rw [hsel]
    exact List.find?_cons_of_pos _ hp
  have hmain : potential_content_selectors.findSome?
      (contentProbe (cleanList [c7Doc navText scrText contentText]))
      = some (c7Div contentText) := by
    rw [show potential_content_selectors
        = Selector.tagSel "main" :: Selector.tagSel "article"
          :: Selector.idSel "content" :: Selector.classSel "content"
          :: [Selector.classSel "main", Selector.classSel "main-content",
              Selector.classSel "product-detail", Selector.classSel "drug-info",
              Selector.classSel "medicine-info",
              Selector.classSel "product-description",
              Selector.tagRoleSel "div" "main"] from rfl]
    simp only [List.findSome?_cons, h1, h2, h3, h4]
  have hrender : renderList [c7Div contentText] = contentText := by
    simp [c7Div, renderList, String.append_empty]
  have hfull : convert_html_to_markdown (c7Doc navText scrText contentText) url
      = collapseNewlines contentText ++ "\n\nSource URL: " ++ url := by
    simp only [convert_html_to_markdown]
    rw [hmain]
    show collapseNewlines (renderList [c7Div contentText])
        ++ "\n\nSource URL: " ++ url
      = collapseNewlines contentText ++ "\n\nSource URL: " ++ url
    rw [hrender]
  refine ⟨hfull, fun hnt => ?_⟩
  rw [hfull]
  have hid : collapseNewlines contentText = contentText := by
    unfold collapseNewlines
    rw [collapseChars_of_no_triple _ hnt]
    rfl
  rw [hid]

/-- A 201-character content text for the C7 witness. -/
def c7Text : String := String.mk (List.replicate 201 'a')

set_option maxRecDepth 4000 in
/-- C7 witness: concrete nav/script/content texts and URL. -/
theorem convert_html_to_markdown_normalizes_witness :
    convert_html_to_markdown (c7Doc "NAVERTEXT" "SCRIPTTEXT" c7Text)
        "https://example.com/p"
      = c7Text ++ "\n\nSource URL: " ++ "https://example.com/p" :=
  (convert_html_to_markdown_normalizes "NAVERTEXT" "SCRIPTTEXT" c7Text
    "https://example.com/p" (by decide)).2 (by decide)

end MedAnalyzer
